import Mathlib

/-!
Verification development for `check_graphite`, a graphite metric threshold
monitor. The Go sources are shallowly embedded here:

* the threshold evaluation loop of `runCheck` (both the monzero-based
  `runner.runCheck` and the legacy `main.go` `runCheck`),
* the HTTP retry loop,
* flag parsing state (Go `flag.FlagSet`, modelled as a record of the seven
  registered flags; tokenisation and numeric parsing of the raw argv are
  abstracted into pre-parsed argument values),
* the `States` history type (`Value`, `Scan`, `Add`, `ToOK`) and the SQL
  history update `ARRAY[$2::int] || states[1:4]`,
* the post-claim part of `monzero.Checker.Next` (timeout substitution,
  `backToOkay`, history push),
* `monzero.CheckExec` keyed on an abstract process outcome.

Go `float64` metric values and threshold levels are embedded as `ℚ`: the
code only ever compares them (`<`, `<=`, `>=`, `>`), never does arithmetic,
so any linearly-ordered dense field is a faithful carrier for these claims.
The textual rendering of a metric value inside a message template (`%f`) is
abstracted to `toString` of the rational; no claim depends on those digits.
-/

namespace CheckGraphite

/-- monzero.CheckResult: exit code plus human readable message.
(The legacy `main.go` `runCheck` returns the same data as a `(string, int)`
pair; we use this record for both.) -/
structure CheckResult where
  exitCode : Int
  message : String
deriving Repr, DecidableEq

/-! ### Threshold evaluator (`runCheck` scan loop)

Source: `src/unnamed/part_002` lines 229-256 and `src/main.go` lines
240-267 (the two loops are textually identical up to variable names).
A datapoint is `[]*float64` in Go with the value at index 0 (index 1, the
timestamp, is never read), so a point is modelled as `Option ℚ`. -/

/-- One step of the running exit code for a non-absent point value `v`.
`desc` is the direction flag, Go `*levelErr < *levelWarn`.
Descending branch (part_002 lines 240-244):
`if *point[0] <= *levelErr && result.ExitCode != 1 { result.ExitCode = 2 }
 else if *point[0] <= *levelWarn && result.ExitCode == 0 { result.ExitCode = 1 }`;
ascending branch mirrors it with `>=` (lines 249-253). -/
def stepCode (desc : Bool) (levelWarn levelErr : ℚ) (code : Int) (v : ℚ) : Int :=
  if desc then
    if v ≤ levelErr ∧ code ≠ 1 then 2
    else if v ≤ levelWarn ∧ code = 0 then 1
    else code
  else
    if levelErr ≤ v ∧ code ≠ 1 then 2
    else if levelWarn ≤ v ∧ code = 0 then 1
    else code

/-- One step of the tracked extreme value `curVal`: minimum in descending
direction, maximum in ascending direction (part_002 lines 237-239, 246-248). -/
def stepVal (desc : Bool) (cur : Option ℚ) (v : ℚ) : Option ℚ :=
  match cur with
  | none => some v
  | some c =>
    if desc then (if v < c then some v else some c)
    else (if c < v then some v else some c)

/-- Processing of one datapoint: `if point[0] == nil { continue }`, otherwise
update `curVal` and the running exit code. -/
def pointStep (desc : Bool) (levelWarn levelErr : ℚ) (acc : Option ℚ × Int) :
    Option ℚ → Option ℚ × Int
  | none => acc
  | some v => (stepVal desc acc.1 v, stepCode desc levelWarn levelErr acc.2 v)

/-- Inner loop `for _, point := range target.Datapoints`. -/
def scanTarget (desc : Bool) (levelWarn levelErr : ℚ) (acc : Option ℚ × Int)
    (target : List (Option ℚ)) : Option ℚ × Int :=
  target.foldl (pointStep desc levelWarn levelErr) acc

/-- Outer loop `for _, target := range payload`, starting from
`curVal = nil, exitCode = 0`; the direction is chosen once per point in Go
but only depends on the two levels, so it is computed up front here. -/
def scanPoints (levelWarn levelErr : ℚ) (payload : List (List (Option ℚ))) :
    Option ℚ × Int :=
  payload.foldl (scanTarget (decide (levelErr < levelWarn)) levelWarn levelErr) (none, 0)

/-- All non-absent values of the payload in scan order. -/
def flatValues (payload : List (List (Option ℚ))) : List ℚ :=
  (payload.map (fun t => t.filterMap id)).flatten

/-- Whether a value breaches the warn level in the direction selected by the
two levels (the spec's notion of a warning-or-worse value). -/
def breachW (levelWarn levelErr : ℚ) (v : ℚ) : Bool :=
  if levelErr < levelWarn then decide (v ≤ levelWarn) else decide (levelWarn ≤ v)

/-- Whether a value breaches the error level in the direction selected by
the two levels. -/
def breachE (levelWarn levelErr : ℚ) (v : ℚ) : Bool :=
  if levelErr < levelWarn then decide (v ≤ levelErr) else decide (levelErr ≤ v)

/-- Substitution of the `%f` template verb on the character list of a Go format string:
`%%` renders a literal percent, `%f` the value. Further `fmt` verbs and the
`%!`-style diagnostics for missing or extra operands are not modelled; no
claim touches them. -/
def formatChars (v : List Char) : List Char → List Char
  | [] => []
  | '%' :: '%' :: rest => '%' :: formatChars v rest
  | '%' :: 'f' :: rest => v ++ formatChars v rest
  | c :: rest => c :: formatChars v rest

/-- Go `fmt.Sprintf(template, value)` for the single-`%f` templates of this
program. The decimal rendering of the float is abstracted to `toString` of
the rational. -/
def formatMessage (template : String) (v : ℚ) : String :=
  String.mk (formatChars (toString v).toList template.toList)

/-- Threshold evaluation of a decoded 200-status payload by
`runner.runCheck` (part_002 lines 229-263): scan all points, then either the
no-values result or the extreme value substituted into the template (Go
appends a newline to the template before formatting). -/
def evaluatePayload (levelWarn levelErr : ℚ) (template : String)
    (payload : List (List (Option ℚ))) : CheckResult :=
  match scanPoints levelWarn levelErr payload with
  | (none, _) => { exitCode := 2, message := "No values received for query! Is the host down?" }
  | (some v, code) => { exitCode := code, message := formatMessage (template ++ "\n") v }

/-! ### HTTP attempt loop (`runner.runCheck`, part_002 lines 183-227)

One attempt of the loop `for i := 0; i < *retries+1; i++` either fails at
the transport level (`c.Get` returns an error), fails reading the body, or
yields a response with a status code and a body. The body is only ever fed
to `json.Unmarshal`, so it is carried here directly as the outcome of that
decoding: `.ok` with the decoded series payload or `.error` with the
diagnostic text. -/

instance {ε α : Type} [DecidableEq ε] [DecidableEq α] : DecidableEq (Except ε α)
  | .error a, .error b =>
    if h : a = b then .isTrue (by rw [h]) else .isFalse (by intro he; cases he; exact h rfl)
  | .error _, .ok _ => .isFalse (by intro h; cases h)
  | .ok _, .error _ => .isFalse (by intro h; cases h)
  | .ok a, .ok b =>
    if h : a = b then .isTrue (by rw [h]) else .isFalse (by intro he; cases he; exact h rfl)

/-- Outcome of one HTTP attempt. -/
inductive HttpAttempt where
  | transportError (msg : String)
  | readError (msg : String)
  | response (status : Int) (body : Except String (List (List (Option ℚ))))
deriving DecidableEq

/-- Result of the whole retry loop, before the outcome is rendered into a
`CheckResult`. -/
inductive LoopOutcome where
  | getFailed (msg : String)
  | readFailed (msg : String)
  | badStatus (status : Int)
  | exhausted (lastStatus : Int)
  | gotPayload (body : Except String (List (List (Option ℚ))))

/-- Status of a response attempt, or a default for non-responses; used to
speak about Go's `res.StatusCode` where `res` is the last response seen. -/
def statusOr (a : HttpAttempt) (d : Int) : Int :=
  match a with
  | .response s _ => s
  | _ => d

/-- The retry loop of part_002 lines 189-216: `responses i` is the outcome
of the `i`-th attempt, `lastStatus` models the status of the `res` variable
that survives the loop, and the second component counts attempts actually
issued. A transport-level failure, a read failure and a non-200 status at
most 500 all return at once; a status strictly greater than 500 consumes
the attempt and retries; status 200 succeeds. Falling out of the loop is
the `!success` case (part_002 lines 218-221). -/
def runAttempts (responses : Nat → HttpAttempt) (lastStatus : Int) (i : Nat) :
    Nat → LoopOutcome × Nat
  | 0 => (.exhausted lastStatus, 0)
  | remaining + 1 =>
    match responses i with
    | .transportError e => (.getFailed ("could not get result: " ++ e), 1)
    | .readError e => (.readFailed ("could not read content body: " ++ e), 1)
    | .response status body =>
      if 500 < status then
        let r := runAttempts responses status (i + 1) remaining
        (r.1, r.2 + 1)
      else if status ≠ 200 then (.badStatus status, 1)
      else (.gotPayload body, 1)

/-! ### Flag parsing (`flag.FlagSet` of `runner.runCheck`, part_002 lines 144-151)

`runner.runCheck` registers seven flags with these defaults. Tokenisation
of the argv and parsing of numeric literals are abstracted: an argument
list is a list of already-interpreted assignments, and `FlagSet.Parse`
assigns them left to right over the current values. Crucially, Go's
`Parse` does not reset flags that are absent from the argument list - they
keep whatever value they currently hold, which is the default only for a
freshly created `FlagSet`. -/

/-- The seven flag variables of `runner.runCheck`'s `FlagSet`. -/
structure FlagState where
  addr : String
  interval : String
  levelWarn : ℚ
  levelErr : ℚ
  key : String
  retries : Int
  message : String
deriving Repr, DecidableEq

/-- Defaults registered in part_002 lines 145-151. -/
def defaultFlags : FlagState :=
  { addr := ""
    interval := "60s"
    levelWarn := 0
    levelErr := 0
    key := ""
    retries := 0
    message := "current value: %f" }

/-- One parsed command-line assignment for `runner.runCheck`'s `FlagSet`. -/
inductive FlagArg where
  | addr (v : String)
  | interval (v : String)
  | levelWarn (v : ℚ)
  | levelErr (v : ℚ)
  | key (v : String)
  | retries (v : Int)
  | message (v : String)
deriving Repr, DecidableEq

/-- Assignment of one parsed argument to the flag state. -/
def setFlag (st : FlagState) : FlagArg → FlagState
  | .addr v => { st with addr := v }
  | .interval v => { st with interval := v }
  | .levelWarn v => { st with levelWarn := v }
  | .levelErr v => { st with levelErr := v }
  | .key v => { st with key := v }
  | .retries v => { st with retries := v }
  | .message v => { st with message := v }

/-- Model of `fs.Parse(args)`: assign the given arguments left to right; flags not
mentioned keep their current values. -/
def fsParse (st : FlagState) (args : List FlagArg) : FlagState :=
  args.foldl setFlag st

def isWarnArg : FlagArg → Bool
  | .levelWarn _ => true
  | _ => false

def isErrArg : FlagArg → Bool
  | .levelErr _ => true
  | _ => false

def isRetriesArg : FlagArg → Bool
  | .retries _ => true
  | _ => false

def isMessageArg : FlagArg → Bool
  | .message _ => true
  | _ => false

def isIntervalArg : FlagArg → Bool
  | .interval _ => true
  | _ => false

/-! ### `runner.runCheck` (part_002 lines 141-264)

The model takes the already-parsed flag state (the `fs.Parse` error path,
which yields `could not parse arguments` with code 3, produces no backend
request either and is outside every claim's quantification) and the
per-attempt backend behaviour. `url.Parse` never fails on the addresses any
claim quantifies over and does not alter control flow, so URL construction
is not modelled. The result is paired with the number of backend requests
actually issued. -/

/-- A `CheckResult` together with the number of HTTP attempts issued. -/
structure RunOutput where
  result : CheckResult
  attempts : Nat
deriving Repr, DecidableEq

/-- Body of `runner.runCheck` after flag parsing: the three emptiness guards
(part_002 lines 158-169, each an immediate code-3 result with no request),
then the retry loop, then JSON decoding and threshold evaluation.
`(retries+1).toNat` iterations of the loop: for the (unclaimed) negative
`-retries` values Go would dereference a nil response and panic; the model
simply runs zero attempts there. -/
def runnerRunCheck (opts : FlagState) (responses : Nat → HttpAttempt) : RunOutput :=
  if opts.addr = "" then ⟨{ exitCode := 3, message := "no address given to check" }, 0⟩
  else if opts.interval = "" then ⟨{ exitCode := 3, message := "no interval given" }, 0⟩
  else if opts.key = "" then ⟨{ exitCode := 3, message := "no key given" }, 0⟩
  else
    let r := runAttempts responses 0 0 (opts.retries + 1).toNat
    match r.1 with
    | .getFailed m => ⟨{ exitCode := 3, message := m }, r.2⟩
    | .readFailed m => ⟨{ exitCode := 3, message := m }, r.2⟩
    | .badStatus s =>
      ⟨{ exitCode := 3, message := "graphite api answered with status code " ++ toString s }, r.2⟩
    | .exhausted s =>
      ⟨{ exitCode := 3,
         message := "graphite api has internal problems, answered with status code: " ++ toString s },
       r.2⟩
    | .gotPayload (.error e) =>
      ⟨{ exitCode := 3, message := "could not parse json content: " ++ e }, r.2⟩
    | .gotPayload (.ok payload) =>
      ⟨evaluatePayload opts.levelWarn opts.levelErr opts.message payload, r.2⟩

/-- One full executor call of the monzero-based daemon: a fresh `FlagSet`
with its defaults is created inside `runner.runCheck` on every call
(part_002 line 144), so the command line is parsed over `defaultFlags`. -/
def runnerCheck (cmdline : List FlagArg) (responses : Nat → HttpAttempt) : RunOutput :=
  runnerRunCheck (fsParse defaultFlags cmdline) responses

/-- A worker of the monzero-based daemon processing a list of claimed
checks, each with its own command line and backend behaviour; the runner
carries no state between iterations (part_002 lines 109-130). -/
def runnerProcess (cs : List (List FlagArg × (Nat → HttpAttempt))) : List CheckResult :=
  cs.map (fun c => (runnerCheck c.1 c.2).result)

/-! ### Legacy daemon (`src/main.go`)

`main.go` is the pre-monzero revision of the program. Its `runCheck`
(lines 179-278) differs from `runner.runCheck` in that the retry loop is
fixed at two attempts (`for i := 0; i < 2; i++`, line 206, there is no
`-retries` flag), the no-values message reads differently, and the success
message is rendered from the package-global `-message` flag (line 277 uses
the global `*message`, not the `msg` parameter passed at line 147).
Each daemon worker creates one `FlagSet` outside its loop (lines 101-107)
and calls `fs.Parse` on it for every claimed check (line 143), so flag
values assigned by one check's command line persist into later checks of
the same worker. -/

/-- Flag variables of a legacy worker's `FlagSet` (main.go lines 101-107):
no `-retries` flag exists there. -/
structure MainFlags where
  addr : String
  interval : String
  levelWarn : ℚ
  levelErr : ℚ
  key : String
  message : String
deriving Repr, DecidableEq

/-- Defaults of main.go lines 101-107. -/
def mainDefaults : MainFlags :=
  { addr := ""
    interval := "60s"
    levelWarn := 0
    levelErr := 0
    key := ""
    message := "current value: %f" }

/-- One parsed command-line assignment for a legacy worker's `FlagSet`. -/
inductive MainArg where
  | addr (v : String)
  | interval (v : String)
  | levelWarn (v : ℚ)
  | levelErr (v : ℚ)
  | key (v : String)
  | message (v : String)
deriving Repr, DecidableEq

def mainSetFlag (st : MainFlags) : MainArg → MainFlags
  | .addr v => { st with addr := v }
  | .interval v => { st with interval := v }
  | .levelWarn v => { st with levelWarn := v }
  | .levelErr v => { st with levelErr := v }
  | .key v => { st with key := v }
  | .message v => { st with message := v }

/-- Model of `fs.Parse` of a legacy worker: assigns over the current values and, like
Go, leaves unmentioned flags untouched. -/
def mainFsParse (st : MainFlags) (args : List MainArg) : MainFlags :=
  args.foldl mainSetFlag st

/-- Legacy `runCheck` (main.go lines 179-278). `globalMessage` is the
package-global `-message` flag of the daemon process itself; the `msg`
parameter mirrors the Go parameter of the same name, which the function
never reads (line 277 uses the global instead). -/
def mainRunCheck (globalMessage : String) (addr key msg intVal : String)
    (levelWarn levelErr : ℚ) (responses : Nat → HttpAttempt) : CheckResult :=
  if addr = "" then { exitCode := 3, message := "no address given to check" }
  else if intVal = "" then { exitCode := 3, message := "no interval given" }
  else if key = "" then { exitCode := 3, message := "no key given" }
  else
    let _unused := msg
    match (runAttempts responses 0 0 2).1 with
    | .getFailed m => { exitCode := 3, message := m }
    | .readFailed m => { exitCode := 3, message := m }
    | .badStatus s =>
      { exitCode := 3, message := "graphite api answered with status code " ++ toString s }
    | .exhausted s =>
      { exitCode := 3,
        message := "graphite api has internal problems, answered with status code: " ++ toString s }
    | .gotPayload (.error e) =>
      { exitCode := 3, message := "could not parse json content: " ++ e }
    | .gotPayload (.ok payload) =>
      match scanPoints levelWarn levelErr payload with
      | (none, _) => { exitCode := 2, message := "no values received! Is the host down?!" }
      | (some v, code) => { exitCode := code, message := formatMessage (globalMessage ++ "\n") v }

/-- A legacy daemon worker processing its claimed checks in order
(main.go lines 109-172): the single `FlagSet` state `fs` is threaded
through the loop, each iteration parses the check's command line over it
and runs the check with the resulting values. -/
def mainWorker (globalMessage : String) (fs : MainFlags) :
    List (List MainArg × (Nat → HttpAttempt)) → List CheckResult
  | [] => []
  | c :: rest =>
    let fs2 := mainFsParse fs c.1
    mainRunCheck globalMessage fs2.addr fs2.key fs2.message fs2.interval
      fs2.levelWarn fs2.levelErr c.2 :: mainWorker globalMessage fs2 rest

/-! ### `States` (history of past exit codes, main.go lines 286-356) -/

/-- Left brace character, written via its code point. -/
def braceL : Char := Char.ofNat 123

/-- Right brace character, written via its code point. -/
def braceR : Char := Char.ofNat 125

/-- Method `States.Value` (main.go lines 286-310): the empty history serializes to
the explicit empty-list marker, otherwise the decimal entries are joined by
commas between braces (`fmt.Fprintf("%d")` per entry). -/
def statesValue (s : List Int) : String :=
  if s.length = 0 then String.mk [braceL, braceR]
  else
    String.mk [braceL] ++ String.intercalate "," (s.map toString) ++ String.mk [braceR]

/-- Model of `bytes.Trim(src, "\x7b\x7d")`: strip leading and trailing braces. -/
def trimBraces (l : List Char) : List Char :=
  ((l.dropWhile (fun c => c = braceL ∨ c = braceR)).reverse.dropWhile
    (fun c => c = braceL ∨ c = braceR)).reverse

/-- Numeric value of a digit list, most significant first. -/
def digitsVal (l : List Char) : Nat :=
  l.foldl (fun acc c => acc * 10 + (c.toNat - 48)) 0

/-- Digit-string parsing as in `strconv.Atoi`: empty input and non-digit
characters are rejected (the int64 overflow bound is not modelled; no claim
involves 19-digit histories). -/
def parseDigits (l : List Char) : Option Nat :=
  if l.isEmpty then none
  else if l.all Char.isDigit then some (digitsVal l) else none

/-- Model of `strconv.Atoi`: an optional sign followed by at least one digit. -/
def atoi (s : List Char) : Option Int :=
  match s with
  | '-' :: rest => (parseDigits rest).map (fun n => -(n : Int))
  | '+' :: rest => (parseDigits rest).map (fun n => (n : Int))
  | l => (parseDigits l).map (fun n => (n : Int))

/-- Method `States.Scan` (main.go lines 312-330) on a textual value: trim braces,
split on commas (Go's `bytes.Split` yields one empty field for an empty
input), `Atoi` every field, failing on the first unparsable field. The
`%s`-rendered `Atoi` error detail inside the message is abstracted away. -/
def statesScan (src : String) : Except String (List Int) :=
  (trimBraces src.toList |>.splitOn ',').mapM fun field =>
    match atoi field with
    | some n => Except.ok n
    | none => Except.error ("could not parse element " ++ String.mk field)

/-- Method `States.Add` (main.go lines 332-341): prepend the new state, keeping at
most the first `statePos` old entries, where `statePos` is 5 unless the
history is shorter than 6. -/
def statesAdd (s : List Int) (state : Int) : List Int :=
  let statePos := if s.length < 6 then s.length else 5
  state :: s.take statePos

/-- Method `States.ToOK` (main.go lines 343-356), evaluated on a history alone:
false for an empty history; for a single entry, whether it is 0; otherwise
whether the top is 0 and the second entry is positive. -/
def statesToOK (s : List Int) : Bool :=
  match s with
  | [] => false
  | [v] => decide (v = 0)
  | v0 :: v1 :: _ => decide (v0 = 0 ∧ 0 < v1)

/-- The recovery flag a legacy worker passes to its UPDATE (main.go line
155): `states.ToOK()` over the history as read from the database, before
the new result code is pushed. The new code is not consulted at all; the
unused second parameter records that. -/
def mainRecoveryFlag (prior : List Int) (newCode : Int) : Bool :=
  let _unused := newCode
  statesToOK prior

/-- The claim's recovery condition, written from the spec's words (\S4.1
step 5): history empty and new code ok, or previous top-of-history positive
and new code ok. -/
def recoverySpec (states : List Int) (newCode : Int) : Prop :=
  (states = [] ∧ newCode = 0) ∨ (states ≠ [] ∧ 0 < states.headI ∧ newCode = 0)

/-! ### monzero `Checker.Next`, post-claim computation (part_003 lines 118-147) -/

/-- part_003 lines 133-138: `backToOkay` is set exactly when the new code
is 0 and the history is either empty or tops with a positive code. -/
def backToOkay (exitCodes : List Int) (newCode : Int) : Bool :=
  match exitCodes with
  | [] => decide (newCode = 0)
  | first :: _ => decide (0 < first ∧ newCode = 0)

/-- part_003 lines 121-124: after the executor returns, a deadline
expiry replaces the result's message and exit code wholesale. `timeoutStr`
is the `%s` rendering of the configured timeout duration. -/
def applyTimeout (deadlineExceeded : Bool) (timeoutStr : String)
    (r : CheckResult) : CheckResult :=
  if deadlineExceeded then
    { r with message := "check took longer than " ++ timeoutStr, exitCode := 2 }
  else r

/-- The history column written by the UPDATE of part_003 line 141 (and
main.go line 151): `ARRAY[$2::int] || states[1:4]`, i.e. the new code
prepended to the first four old entries. -/
def sqlStatesUpdate (newCode : Int) (states : List Int) : List Int :=
  newCode :: states.take 4

/-- The values `Checker.Next` persists for one claimed check, as a function
of the prior history, the executor's result and whether the context
deadline expired. -/
structure NextOutcome where
  result : CheckResult
  toOK : Bool
  newStates : List Int
deriving Repr, DecidableEq

/-- Post-claim computation of `Checker.Next` (part_003 lines 118-147):
timeout substitution, recovery flag from the prior history and the final
exit code, history push. -/
def checkerNext (prevStates : List Int) (execResult : CheckResult)
    (deadlineExceeded : Bool) (timeoutStr : String) : NextOutcome :=
  let result := applyTimeout deadlineExceeded timeoutStr execResult
  { result := result
    toOK := backToOkay prevStates result.exitCode
    newStates := sqlStatesUpdate result.exitCode prevStates }

/-! ### `monzero.CheckExec` (vendor README, `CheckExec` lines 102-127) -/

/-- Abstract outcome of `cmd.Run()` for the subprocess executor:
`exited s out` covers every run with an obtainable wait status (`s = 0` is
the `err == nil` case; a signal-killed process surfaces as `s = -1`, Go's
`WaitStatus.ExitStatus()` for signals); `startFailed` is `err != nil` with
`cmd.ProcessState == nil`; `noWaitStatus` is a present process state whose
`Sys()` is not a `syscall.WaitStatus`, with the combined output captured. -/
inductive ProcOutcome where
  | exited (status : Int) (output : String)
  | startFailed (errMsg : String)
  | noWaitStatus (errMsg : String) (output : String)
deriving Repr, DecidableEq

/-- Model of `CheckExec`: on `startFailed` it returns early with code 3 and the
diagnostic; on `noWaitStatus` it sets code 2 and a diagnostic message that
line 125 then overwrites with the captured output; otherwise the raw exit
status passes through unmodified with the combined output as message. -/
def checkExec : ProcOutcome → CheckResult
  | .exited status output => { exitCode := status, message := output }
  | .startFailed e => { exitCode := 3, message := "unknown error when running command: " ++ e }
  | .noWaitStatus _ output => { exitCode := 2, message := output }

/-! ### Concrete inputs used by witnesses and counterexamples -/

/-- A backend that answers 200 with one series of one point of value 5. -/
def respOk5 : Nat → HttpAttempt :=
  fun _ => .response 200 (.ok [[some 5]])

/-- A backend that always answers 503 (transient condition). -/
def resp503 : Nat → HttpAttempt :=
  fun _ => .response 503 (.ok [])

/-- Command line with address and key only; every other flag is left at its
default. -/
def cmdNoLevels : List MainArg := [.addr "http://graphite", .key "cpu"]

/-- The same command line with an explicit warning level of 10. -/
def cmdWarn10 : List MainArg :=
  [.addr "http://graphite", .key "cpu", .levelWarn 10]

/-- Flag state of `runner.runCheck` used by retry-policy witnesses: one retry
allowed. -/
def optsRetry1 : FlagState :=
  { addr := "http://graphite"
    interval := "60s"
    levelWarn := 0
    levelErr := 0
    key := "cpu"
    retries := 1
    message := "current value: %f" }

/-- Command line for `runner.runCheck` with address and key only (all other
flags at their defaults). -/
def cmdRunnerNoLevels : List FlagArg := [.addr "http://graphite", .key "cpu"]

/-! ## Helper lemmas -/

/-- Running exit codes 1 and 2 are absorbing states of the per-point code
update: the `!= 1` guard blocks escalation out of 1, and from 2 both
branches leave the code at 2. -/
lemma stepCode_absorb (d : Bool) (w e v : ℚ) (c : Int) (h : c = 1 ∨ c = 2) :
    stepCode d w e c v = c := by
  rcases h with rfl | rfl <;> cases d <;> simp [stepCode]

/-- Folding any value list from an absorbing code leaves it unchanged. -/
lemma foldl_stepCode_absorb (d : Bool) (w e : ℚ) (c : Int) (h : c = 1 ∨ c = 2)
    (l : List ℚ) : l.foldl (stepCode d w e) c = c := by
  induction l with
  | nil => rfl
  | cons v rest ih => rw [List.foldl_cons, stepCode_absorb d w e v c h]; exact ih

/-- One target's scan is the pair of independent folds over its non-absent
values. -/
lemma scanTarget_eq (d : Bool) (w e : ℚ) (acc : Option ℚ × Int)
    (t : List (Option ℚ)) :
    scanTarget d w e acc t =
      ((t.filterMap id).foldl (stepVal d) acc.1,
       (t.filterMap id).foldl (stepCode d w e) acc.2) := by
  induction t generalizing acc with
  | nil => rfl
  | cons p rest ih =>
    cases p with
    | none =>
      simpa [scanTarget, pointStep, List.filterMap_cons] using ih acc
    | some v =>
      simpa [scanTarget, pointStep, List.filterMap_cons] using
        ih (stepVal d acc.1 v, stepCode d w e acc.2 v)

/-- The whole scan is the pair of independent folds over all non-absent
values in scan order. -/
lemma scanFold_eq (d : Bool) (w e : ℚ) (payload : List (List (Option ℚ))) :
    ∀ acc, payload.foldl (scanTarget d w e) acc =
      (((payload.map (fun t => t.filterMap id)).flatten).foldl (stepVal d) acc.1,
       ((payload.map (fun t => t.filterMap id)).flatten).foldl (stepCode d w e) acc.2) := by
  induction payload with
  | nil => intro acc; simp
  | cons t rest ih =>
    intro acc
    rw [List.foldl_cons, ih (scanTarget d w e acc t), scanTarget_eq]
    simp [List.foldl_append]

/-- The exit-code component of `scanPoints` is a single fold of `stepCode`
over `flatValues`. -/
lemma scanPoints_snd (w e : ℚ) (payload : List (List (Option ℚ))) :
    (scanPoints w e payload).2 =
      (flatValues payload).foldl (stepCode (decide (e < w)) w e) 0 := by
  rw [scanPoints, scanFold_eq, flatValues]

/-- Characterization of the evaluation loop's exit code: it is decided by
the first value (in scan order) that breaches the warn level - 2 if that
value also breaches the error level, 1 otherwise - and is 0 exactly when no
value breaches the warn level. -/
lemma codeFold_char (w e : ℚ) (l : List ℚ) :
    l.foldl (stepCode (decide (e < w)) w e) 0 =
      match l.find? (breachW w e) with
      | none => 0
      | some v => if breachE w e v then 2 else 1 := by
  induction l with
  | nil => rfl
  | cons v rest ih =>
    rw [List.foldl_cons]
    by_cases hd : e < w
    · by_cases hbw : v ≤ w
      · have hfind : (v :: rest).find? (breachW w e) = some v := by
          rw [List.find?_cons_of_pos]
          simp [breachW, hd, hbw]
        rw [hfind]
        by_cases hbe : v ≤ e
        · have hstep : stepCode (decide (e < w)) w e 0 v = 2 := by
            simp [stepCode, hd, hbe]
          rw [hstep, foldl_stepCode_absorb _ _ _ 2 (Or.inr rfl)]
          simp [breachE, hd, hbe]
        · have hstep : stepCode (decide (e < w)) w e 0 v = 1 := by
            simp [stepCode, hd, hbe, hbw]
          rw [hstep, foldl_stepCode_absorb _ _ _ 1 (Or.inl rfl)]
          simp [breachE, hd, hbe]
      · have hbe : ¬ v ≤ e := fun hle => hbw (le_trans hle (le_of_lt hd))
        have hstep : stepCode (decide (e < w)) w e 0 v = 0 := by
          simp [stepCode, hd, hbe, hbw]
        have hfind : (v :: rest).find? (breachW w e) = rest.find? (breachW w e) := by
          rw [List.find?_cons_of_neg]
          simp [breachW, hd, hbw]
        rw [hstep, hfind]
        exact ih
    · by_cases hbw : w ≤ v
      · have hfind : (v :: rest).find? (breachW w e) = some v := by
          rw [List.find?_cons_of_pos]
          simp [breachW, hd, hbw]
        rw [hfind]
        by_cases hbe : e ≤ v
        · have hstep : stepCode (decide (e < w)) w e 0 v = 2 := by
            simp [stepCode, hd, hbe]
          rw [hstep, foldl_stepCode_absorb _ _ _ 2 (Or.inr rfl)]
          simp [breachE, hd, hbe]
        · have hstep : stepCode (decide (e < w)) w e 0 v = 1 := by
            simp [stepCode, hd, hbe, hbw]
          rw [hstep, foldl_stepCode_absorb _ _ _ 1 (Or.inl rfl)]
          simp [breachE, hd, hbe]
      · have hbe : ¬ e ≤ v := fun hle => hbw (le_trans (le_of_not_lt hd) hle)
        have hstep : stepCode (decide (e < w)) w e 0 v = 0 := by
          simp [stepCode, hd, hbe, hbw]
        have hfind : (v :: rest).find? (breachW w e) = rest.find? (breachW w e) := by
          rw [List.find?_cons_of_neg]
          simp [breachW, hd, hbw]
        rw [hstep, hfind]
        exact ih

/-! ## Claim theorems -/

/-- C1 (counterexample). With warn = 4 and error = 2 (descending direction,
error < warn) and the single series [3, 1], the point value 1 is non-absent
and at most the error level, yet the evaluation's result code is 1, not 2:
the running code was already 1 from the earlier warning-level value 3, and
the `!= 1` guard blocks the escalation the claim asserts. -/
theorem threshold_escalation_cx :
    (scanPoints 4 2 [[some 3, some 1]]).2 = 1
    ∧ ((1 : ℚ) ≤ 2) ∧ ((2 : ℚ) < 4) := by decide

/-- C1 (amended). The result code of a series evaluation is decided by the
first non-absent value in scan order that breaches the warn level for the
direction selected by the two levels: code 2 if that first breaching value
also breaches the error level, code 1 otherwise (even if a later value
breaches the error level), and code 0 exactly when no non-absent value
breaches the warn level. -/
theorem threshold_first_breach (w e : ℚ) (payload : List (List (Option ℚ))) :
    ((scanPoints w e payload).2 =
      match (flatValues payload).find? (breachW w e) with
      | none => 0
      | some v => if breachE w e v then 2 else 1)
    ∧ ((scanPoints w e payload).2 = 0 ↔
      ∀ v ∈ flatValues payload, breachW w e v = false) := by
  have hchar := codeFold_char w e (flatValues payload)
  rw [scanPoints_snd w e payload] at *
  refine ⟨hchar, ?_⟩
  rw [hchar]
  cases hfind : (flatValues payload).find? (breachW w e) with
  | none =>
    simp only [true_iff]
    intro v hv
    have := List.find?_eq_none.mp hfind v hv
    simpa using this
  | some v =>
    have hmem : v ∈ flatValues payload := List.mem_of_find?_eq_some hfind
    have hbw : breachW w e v = true := List.find?_some hfind
    constructor
    · intro h0
      by_cases hbe : breachE w e v = true <;> simp [hbe] at h0
    · intro hall
      exact absurd (hall v hmem) (by simp [hbw])

/-- C7. Code 2 is sticky within one series evaluation: if scanning a prefix
of the payload has produced exit code 2, scanning any continuation of it
still produces exit code 2 - no later point can lower it. -/
theorem critical_code_sticky (w e : ℚ) (p1 p2 : List (List (Option ℚ)))
    (h : (scanPoints w e p1).2 = 2) :
    (scanPoints w e (p1 ++ p2)).2 = 2 := by
  rw [scanPoints_snd] at h ⊢
  have hflat : flatValues (p1 ++ p2) = flatValues p1 ++ flatValues p2 := by
    simp [flatValues]
  rw [hflat, List.foldl_append, h]
  exact foldl_stepCode_absorb _ _ _ 2 (Or.inr rfl) _

/-- C7 (witness): with warn = 4, error = 2, the single point 1 yields code
2, and appending a further, harmless point 10 leaves the code at 2. -/
theorem critical_code_sticky_witness :
    (scanPoints 4 2 [[some 1]]).2 = 2
    ∧ (scanPoints 4 2 ([[some 1]] ++ [[some 10]])).2 = 2 :=
  ⟨by decide, critical_code_sticky 4 2 [[some 1]] [[some 10]] (by decide)⟩

/-- C2 (counterexample). With prior history [2] and new result code 0 the
claim's condition holds (previous top 2 > 0, new code 0), so the claim
demands a recovery flag of true; but the flag the legacy daemon persists is
`States.ToOK` of the prior history alone, which is false here (its top is
not 0). The new result code never enters that computation. -/
theorem recovery_flag_cx :
    mainRecoveryFlag [2] 0 = false ∧ recoverySpec [2] 0 := by
  refine ⟨rfl, Or.inr ⟨by decide, by decide, rfl⟩⟩

/-- C2 (amended). The monzero coordinator's `backToOkay` is true exactly as
the claim states: the prior history is empty and the new code is 0, or the
prior top is positive and the new code is 0. The legacy daemon instead
persists `States.ToOK` evaluated on the prior history alone, which is true
exactly when that history is nonempty, tops with 0, and is either a
singleton or has a positive second entry - the new result code plays no
part in it. -/
theorem recovery_flag_amended :
    (∀ states newCode, backToOkay states newCode = true ↔ recoverySpec states newCode)
    ∧ (∀ prior newCode, mainRecoveryFlag prior newCode = statesToOK prior)
    ∧ (∀ s, statesToOK s = true ↔
        s ≠ [] ∧ s.headI = 0 ∧ (s.tail = [] ∨ 0 < s.tail.headI)) := by
  refine ⟨?_, fun _ _ => rfl, ?_⟩
  · intro states newCode
    cases states with
    | nil => simp [backToOkay, recoverySpec]
    | cons a rest => simp [backToOkay, recoverySpec, List.headI, and_comm]
  · intro s
    match s with
    | [] => simp [statesToOK]
    | [v] => simp [statesToOK, List.headI]
    | v0 :: v1 :: rest => simp [statesToOK, List.headI]

/-- C3. If the context deadline expired, `Checker.Next` discards whatever
the executor returned and persists exit code 2 with the message
"check took longer than" the timeout: the outcome is independent of the
executor's result and in particular is never code 3. -/
theorem timeout_result (prev : List Int) (r : CheckResult) (t : String) :
    (checkerNext prev r true t).result =
      { exitCode := 2, message := "check took longer than " ++ t }
    ∧ (checkerNext prev r true t).result.exitCode ≠ 3 := by
  exact ⟨rfl, by simp [checkerNext, applyTimeout]⟩

/-- C5 (code bug, evaluated at the failing input). The empty history
serializes to the explicit empty-list marker as specified, but `States.Scan`
fails on exactly that marker - trimming the braces leaves the empty string,
`bytes.Split` turns it into one empty field, and `strconv.Atoi` rejects the
empty field - so the length-0 history does not round-trip, while nonempty
histories (shown for lengths 1 and 5) round-trip exactly. -/
theorem states_roundtrip_empty_bug :
    statesValue [] = String.mk [braceL, braceR]
    ∧ statesScan (statesValue []) = .error "could not parse element "
    ∧ statesScan (statesValue [2]) = .ok [2]
    ∧ statesScan (statesValue [0, 1, 2, 3, 4]) = .ok [0, 1, 2, 3, 4] := by decide

/-- C6 (counterexample). `States.Add` on a history that already holds 5
entries keeps all 5 of them below the new code: the result has length 6,
exceeding the depth bound of 5 the claim asserts. -/
theorem states_add_depth_cx :
    (statesAdd [1, 1, 1, 1, 1] 0).length = 6
    ∧ ¬ (statesAdd [1, 1, 1, 1, 1] 0).length ≤ 5 := by decide

/-- C6 (amended). The persisted update `ARRAY[$2::int] || states[1:4]`
prepends the new code, keeps at most the 4 previously newest entries and so
bounds the stored history by 5; the in-process `States.Add` (which neither
daemon calls when persisting) keeps up to 5 previous entries, so its result
length is `min (len + 1) 6` and can reach 6. -/
theorem history_depth_amended (prevStates states : List Int) (r : CheckResult)
    (dl : Bool) (t : String) (newCode : Int) :
    (checkerNext prevStates r dl t).newStates.length ≤ 5
    ∧ sqlStatesUpdate newCode states = newCode :: states.take 4
    ∧ (sqlStatesUpdate newCode states).length ≤ 5
    ∧ (statesAdd states newCode).length = min (states.length + 1) 6 := by
  refine ⟨?_, rfl, ?_, ?_⟩
  · show (sqlStatesUpdate _ prevStates).length ≤ 5
    simp only [sqlStatesUpdate, List.length_cons, List.length_take]
    omega
  · simp only [sqlStatesUpdate, List.length_cons, List.length_take]
    omega
  · simp only [statesAdd, List.length_cons, List.length_take]
    split_ifs <;> omega

/-- C9 (counterexample). When the child terminated abnormally with a
process state present but no obtainable wait status, `CheckExec` returns
exit code 2 - not 3 - and its diagnostic message is overwritten by the
captured output before returning. -/
theorem exec_no_wait_status_cx :
    (checkExec (.noWaitStatus "bad status type" "combined output")).exitCode = 2
    ∧ (checkExec (.noWaitStatus "bad status type" "combined output")).message = "combined output"
    ∧ ¬ (checkExec (.noWaitStatus "bad status type" "combined output")).exitCode = 3 := by decide

/-- C9 (amended). `CheckExec` passes an obtainable raw exit status through
unmodified with the combined output as message; it returns code 3 with a
diagnostic only when no process state exists at all; when a process state
exists but its platform status is not a Unix wait status, the code is 2 and
the message is the captured output rather than a diagnostic. -/
theorem exec_result_amended :
    (∀ s out, checkExec (.exited s out) = { exitCode := s, message := out })
    ∧ (∀ e, checkExec (.startFailed e) =
        { exitCode := 3, message := "unknown error when running command: " ++ e })
    ∧ (∀ e out, checkExec (.noWaitStatus e out) = { exitCode := 2, message := out }) :=
  ⟨fun _ _ => rfl, fun _ => rfl, fun _ _ => rfl⟩

/-- C10 (counterexample). A legacy worker runs three checks: the first and
third share the identical command line (address and key only, no levels)
and the identical backend behaviour (200 with value 5), while the middle
one sets `-warn 10`. The first run of the no-levels command evaluates
ascending (warn = err = 0) and exits 2; after the middle check, the
reused `FlagSet` still holds warn = 10, so the third run evaluates
descending and exits 1 - the middle check's flag changed a later check's
result. -/
theorem flag_leak_cx :
    (mainWorker "current value: %f" mainDefaults
        [(cmdNoLevels, respOk5), (cmdWarn10, respOk5), (cmdNoLevels, respOk5)]).map
      CheckResult.exitCode = [2, 1, 1]
    ∧ ¬ ((2 : Int) = 1) := by decide

/-- C10 (amended). In the monzero-based daemon the property holds:
`runner.runCheck` creates a fresh `FlagSet` per call and the worker carries
no state between checks, so the result at any position depends only on that
check's own command tokens and backend responses - identically-presented
checks give identical results regardless of what ran before them. (The
legacy `main.go` daemon violates this by reusing one `FlagSet` across its
loop, as the counterexample shows.) -/
theorem runner_no_flag_leak (cs1 cs2 : List (List FlagArg × (Nat → HttpAttempt)))
    (i j : Nat) (h : cs1[i]? = cs2[j]?) :
    (runnerProcess cs1)[i]? = (runnerProcess cs2)[j]? := by
  simp only [runnerProcess, List.getElem?_map, h]

/-- C10 (witness): the first check of a one-element batch and the first
check of a two-element batch coincide, so their results coincide. -/
theorem runner_no_flag_leak_witness :
    (runnerProcess [(cmdRunnerNoLevels, respOk5)])[0]? =
      (runnerProcess [(cmdRunnerNoLevels, respOk5), (cmdRunnerNoLevels, resp503)])[0]? :=
  runner_no_flag_leak [(cmdRunnerNoLevels, respOk5)]
    [(cmdRunnerNoLevels, respOk5), (cmdRunnerNoLevels, resp503)] 0 0 rfl

/-- A parse that assigns no `-warn` argument leaves the warning level at
its current value. -/
lemma fsParse_warn_of_absent :
    ∀ (args : List FlagArg) (st : FlagState), args.any isWarnArg = false →
      (fsParse st args).levelWarn = st.levelWarn := by
  intro args
  induction args with
  | nil => intro st _; rfl
  | cons a rest ih =>
    intro st h
    rw [List.any_cons, Bool.or_eq_false_iff] at h
    have hrest := ih (setFlag st a) h.2
    have hkeep : (setFlag st a).levelWarn = st.levelWarn := by
      cases a <;> first | rfl | (exfalso; simp [isWarnArg] at h)
    calc (fsParse st (a :: rest)).levelWarn = (fsParse (setFlag st a) rest).levelWarn := rfl
    _ = (setFlag st a).levelWarn := hrest
    _ = st.levelWarn := hkeep

/-- A parse that assigns no `-error` argument leaves the error level at its
current value. -/
lemma fsParse_err_of_absent :
    ∀ (args : List FlagArg) (st : FlagState), args.any isErrArg = false →
      (fsParse st args).levelErr = st.levelErr := by
  intro args
  induction args with
  | nil => intro st _; rfl
  | cons a rest ih =>
    intro st h
    rw [List.any_cons, Bool.or_eq_false_iff] at h
    have hrest := ih (setFlag st a) h.2
    have hkeep : (setFlag st a).levelErr = st.levelErr := by
      cases a <;> first | rfl | (exfalso; simp [isErrArg] at h)
    calc (fsParse st (a :: rest)).levelErr = (fsParse (setFlag st a) rest).levelErr := rfl
    _ = (setFlag st a).levelErr := hrest
    _ = st.levelErr := hkeep

/-- A parse that assigns no `-retries` argument leaves the retry budget at
its current value. -/
lemma fsParse_retries_of_absent :
    ∀ (args : List FlagArg) (st : FlagState), args.any isRetriesArg = false →
      (fsParse st args).retries = st.retries := by
  intro args
  induction args with
  | nil => intro st _; rfl
  | cons a rest ih =>
    intro st h
    rw [List.any_cons, Bool.or_eq_false_iff] at h
    have hrest := ih (setFlag st a) h.2
    have hkeep : (setFlag st a).retries = st.retries := by
      cases a <;> first | rfl | (exfalso; simp [isRetriesArg] at h)
    calc (fsParse st (a :: rest)).retries = (fsParse (setFlag st a) rest).retries := rfl
    _ = (setFlag st a).retries := hrest
    _ = st.retries := hkeep

/-- A parse that assigns no `-message` argument leaves the template at its
current value. -/
lemma fsParse_message_of_absent :
    ∀ (args : List FlagArg) (st : FlagState), args.any isMessageArg = false →
      (fsParse st args).message = st.message := by
  intro args
  induction args with
  | nil => intro st _; rfl
  | cons a rest ih =>
    intro st h
    rw [List.any_cons, Bool.or_eq_false_iff] at h
    have hrest := ih (setFlag st a) h.2
    have hkeep : (setFlag st a).message = st.message := by
      cases a <;> first | rfl | (exfalso; simp [isMessageArg] at h)
    calc (fsParse st (a :: rest)).message = (fsParse (setFlag st a) rest).message := rfl
    _ = (setFlag st a).message := hrest
    _ = st.message := hkeep

/-- A parse that assigns no `-interval` argument leaves the lookback
interval at its current value. -/
lemma fsParse_interval_of_absent :
    ∀ (args : List FlagArg) (st : FlagState), args.any isIntervalArg = false →
      (fsParse st args).interval = st.interval := by
  intro args
  induction args with
  | nil => intro st _; rfl
  | cons a rest ih =>
    intro st h
    rw [List.any_cons, Bool.or_eq_false_iff] at h
    have hrest := ih (setFlag st a) h.2
    have hkeep : (setFlag st a).interval = st.interval := by
      cases a <;> first | rfl | (exfalso; simp [isIntervalArg] at h)
    calc (fsParse st (a :: rest)).interval = (fsParse (setFlag st a) rest).interval := rfl
    _ = (setFlag st a).interval := hrest
    _ = st.interval := hkeep

/-- C8 (counterexample). A command line carrying only an address and a key
leaves the warning level, error level, retry count, message template and
lookback interval unset; yet `runner.runCheck` does not return an immediate
code-3 result - it issues one backend request and evaluates the thresholds
(here to code 2), because those five inputs fall back to flag defaults
rather than being required. -/
theorem required_inputs_cx :
    cmdRunnerNoLevels.any isWarnArg = false
    ∧ cmdRunnerNoLevels.any isErrArg = false
    ∧ cmdRunnerNoLevels.any isRetriesArg = false
    ∧ cmdRunnerNoLevels.any isMessageArg = false
    ∧ cmdRunnerNoLevels.any isIntervalArg = false
    ∧ (runnerCheck cmdRunnerNoLevels respOk5).attempts = 1
    ∧ (runnerCheck cmdRunnerNoLevels respOk5).result.exitCode = 2 := by decide

/-- C8 (amended). Only the backend address and the metric key (whose flag
defaults are empty) and an explicitly empty lookback interval cause an
immediate code-3 result with no backend request; the warning level, error
level, message template and retry count are never checked - an absent flag
simply leaves the default in place (0, 0, the standard template, 0), and
the interval's default "60s" means an absent `-interval` flag proceeds
too. -/
theorem required_inputs_amended (opts : FlagState) (responses : Nat → HttpAttempt)
    (st : FlagState) (args : List FlagArg) :
    (opts.addr = "" →
      runnerRunCheck opts responses =
        ⟨{ exitCode := 3, message := "no address given to check" }, 0⟩)
    ∧ (opts.addr ≠ "" → opts.interval = "" →
      runnerRunCheck opts responses =
        ⟨{ exitCode := 3, message := "no interval given" }, 0⟩)
    ∧ (opts.addr ≠ "" → opts.interval ≠ "" → opts.key = "" →
      runnerRunCheck opts responses =
        ⟨{ exitCode := 3, message := "no key given" }, 0⟩)
    ∧ (defaultFlags.addr = "" ∧ defaultFlags.key = "" ∧ defaultFlags.interval = "60s"
        ∧ defaultFlags.levelWarn = 0 ∧ defaultFlags.levelErr = 0
        ∧ defaultFlags.retries = 0 ∧ defaultFlags.message = "current value: %f")
    ∧ (args.any isWarnArg = false → (fsParse st args).levelWarn = st.levelWarn)
    ∧ (args.any isErrArg = false → (fsParse st args).levelErr = st.levelErr)
    ∧ (args.any isRetriesArg = false → (fsParse st args).retries = st.retries)
    ∧ (args.any isMessageArg = false → (fsParse st args).message = st.message)
    ∧ (args.any isIntervalArg = false → (fsParse st args).interval = st.interval) := by
  refine ⟨?_, ?_, ?_, ⟨rfl, rfl, rfl, rfl, rfl, rfl, rfl⟩,
    fsParse_warn_of_absent args st, fsParse_err_of_absent args st,
    fsParse_retries_of_absent args st, fsParse_message_of_absent args st,
    fsParse_interval_of_absent args st⟩
  · intro h
    simp [runnerRunCheck, h]
  · intro h1 h2
    simp [runnerRunCheck, h1, h2]
  · intro h1 h2 h3
    simp [runnerRunCheck, h1, h2, h3]

/-- C8 (witness): with an empty address (and the other flags at defaults),
the result is the immediate code-3 "no address" answer with zero backend
requests. -/
theorem required_inputs_witness :
    runnerRunCheck { defaultFlags with key := "cpu" } respOk5 =
      ⟨{ exitCode := 3, message := "no address given to check" }, 0⟩ :=
  (required_inputs_amended { defaultFlags with key := "cpu" } respOk5 defaultFlags []).1 rfl

/-- The retry loop never issues more attempts than its iteration budget. -/
lemma runAttempts_count_le (responses : Nat → HttpAttempt) :
    ∀ (rem : Nat) (last : Int) (i : Nat),
      (runAttempts responses last i rem).2 ≤ rem := by
  intro rem
  induction rem with
  | zero => intro last i; simp [runAttempts]
  | succ n ih =>
    intro last i
    rw [runAttempts]
    cases responses i with
    | transportError e => simp
    | readError e => simp
    | response s b =>
      by_cases h5 : 500 < s
      · have := ih s (i + 1)
        simp only [h5, if_true]
        omega
      · by_cases h200 : s = 200 <;> simp [h5, h200]

/-- A transport-level failure at the current attempt ends the loop at once,
after this single attempt. -/
lemma runAttempts_transport (responses : Nat → HttpAttempt) (e : String)
    (last : Int) (i rem : Nat) (h : responses i = .transportError e) :
    runAttempts responses last i (rem + 1) =
      (.getFailed ("could not get result: " ++ e), 1) := by
  rw [runAttempts, h]

/-- A non-200 status that is not above 500 ends the loop at once, after
this single attempt. -/
lemma runAttempts_badStatus (responses : Nat → HttpAttempt) (s : Int)
    (b : Except String (List (List (Option ℚ)))) (last : Int) (i rem : Nat)
    (h : responses i = .response s b) (h5 : ¬ 500 < s) (h200 : s ≠ 200) :
    runAttempts responses last i (rem + 1) = (.badStatus s, 1) := by
  rw [runAttempts, h]
  simp [h5, h200]

/-- Status 200 ends the loop successfully, after this single attempt. -/
lemma runAttempts_ok200 (responses : Nat → HttpAttempt)
    (b : Except String (List (List (Option ℚ)))) (last : Int) (i rem : Nat)
    (h : responses i = .response 200 b) :
    runAttempts responses last i (rem + 1) = (.gotPayload b, 1) := by
  rw [runAttempts, h]
  norm_num

/-- A status strictly above 500 consumes the attempt and retries with the
remaining budget. -/
lemma runAttempts_transient_step (responses : Nat → HttpAttempt) (s : Int)
    (b : Except String (List (List (Option ℚ)))) (last : Int) (i rem : Nat)
    (h : responses i = .response s b) (h5 : 500 < s) :
    runAttempts responses last i (rem + 1) =
      ((runAttempts responses s (i + 1) rem).1,
       (runAttempts responses s (i + 1) rem).2 + 1) := by
  rw [runAttempts, h]
  simp [h5]

/-- If every attempt in the budget yields a status above 500, the loop
exhausts the whole budget and reports the last status seen. -/
lemma runAttempts_all_transient (responses : Nat → HttpAttempt) :
    ∀ (rem i : Nat) (last : Int),
      (∀ j, j < rem + 1 → ∃ s b, responses (i + j) = .response s b ∧ 500 < s) →
      runAttempts responses last i (rem + 1) =
        (.exhausted (statusOr (responses (i + rem)) 0), rem + 1) := by
  intro rem
  induction rem with
  | zero =>
    intro i last h
    obtain ⟨s, b, hresp, h5⟩ := h 0 (by omega)
    rw [Nat.add_zero] at hresp
    rw [runAttempts_transient_step responses s b last i 0 hresp h5]
    simp [runAttempts, hresp, statusOr]
  | succ n ih =>
    intro i last h
    obtain ⟨s, b, hresp, h5⟩ := h 0 (by omega)
    rw [Nat.add_zero] at hresp
    rw [runAttempts_transient_step responses s b last i (n + 1) hresp h5]
    have hshift : ∀ j, j < n + 1 → ∃ s2 b2,
        responses (i + 1 + j) = .response s2 b2 ∧ 500 < s2 := by
      intro j hj
      have := h (j + 1) (by omega)
      have harith : i + (j + 1) = i + 1 + j := by omega
      rwa [harith] at this
    rw [ih (i + 1) s hshift]
    have harith : i + 1 + n = i + (n + 1) := by omega
    rw [harith]

/-- C4. The retry policy of `runner.runCheck` with a nonnegative retry
budget r: at most r+1 attempts ever happen; a transport-level failure at
the first attempt ends the run at once with code 3; a non-200 status at
most 500 at the first attempt ends the run at once with code 3; inside the
loop, a status above 500 always consumes exactly one attempt and retries
while any transport failure ends the loop after that single attempt; if
every budgeted attempt stays above 500 the run ends with code 3 and the
backend-internal-problems message after exactly r+1 attempts; and a 200
response at the first attempt proceeds to threshold evaluation. -/
theorem http_retry_policy (opts : FlagState) (responses : Nat → HttpAttempt)
    (h1 : opts.addr ≠ "") (h2 : opts.interval ≠ "") (h3 : opts.key ≠ "")
    (hr : 0 ≤ opts.retries) :
    ((runnerRunCheck opts responses).attempts ≤ (opts.retries + 1).toNat)
    ∧ (∀ e, responses 0 = .transportError e →
      runnerRunCheck opts responses =
        ⟨{ exitCode := 3, message := "could not get result: " ++ e }, 1⟩)
    ∧ (∀ s b, responses 0 = .response s b → ¬ 500 < s → s ≠ 200 →
      runnerRunCheck opts responses =
        ⟨{ exitCode := 3, message := "graphite api answered with status code " ++ toString s }, 1⟩)
    ∧ (∀ s b i last rem, responses i = .response s b → 500 < s →
      runAttempts responses last i (rem + 1) =
        ((runAttempts responses s (i + 1) rem).1,
         (runAttempts responses s (i + 1) rem).2 + 1))
    ∧ (∀ e i last rem, responses i = .transportError e →
      runAttempts responses last i (rem + 1) =
        (.getFailed ("could not get result: " ++ e), 1))
    ∧ ((∀ j, j < (opts.retries + 1).toNat → ∃ s b, responses j = .response s b ∧ 500 < s) →
      runnerRunCheck opts responses =
        ⟨{ exitCode := 3,
           message := "graphite api has internal problems, answered with status code: " ++
             toString (statusOr (responses opts.retries.toNat) 0) },
         (opts.retries + 1).toNat⟩)
    ∧ (∀ p, responses 0 = .response 200 (.ok p) →
      runnerRunCheck opts responses =
        ⟨evaluatePayload opts.levelWarn opts.levelErr opts.message p, 1⟩) := by
  have htoNat : (opts.retries + 1).toNat = opts.retries.toNat + 1 := by omega
  refine ⟨?_, ?_, ?_, ?_, ?_, ?_, ?_⟩
  · have hle := runAttempts_count_le responses (opts.retries + 1).toNat 0 0
    simp [runnerRunCheck, h1, h2, h3]
    split <;> simpa using hle
  · intro e he
    have hstep := runAttempts_transport responses e 0 0 opts.retries.toNat he
    simp [runnerRunCheck, h1, h2, h3, htoNat, hstep]
  · intro s b hresp h5 h200
    have hstep := runAttempts_badStatus responses s b 0 0 opts.retries.toNat hresp h5 h200
    simp [runnerRunCheck, h1, h2, h3, htoNat, hstep]
  · intro s b i last rem hresp h5
    exact runAttempts_transient_step responses s b last i rem hresp h5
  · intro e i last rem hresp
    exact runAttempts_transport responses e last i rem hresp
  · intro hall
    rw [htoNat] at hall
    have hloop := runAttempts_all_transient responses opts.retries.toNat 0 0
      (fun j hj => by simpa using hall j (by omega))
    simp only [Nat.zero_add] at hloop
    simp [runnerRunCheck, h1, h2, h3, htoNat, hloop]
  · intro p hresp
    have hstep := runAttempts_ok200 responses (.ok p) 0 0 opts.retries.toNat hresp
    simp [runnerRunCheck, h1, h2, h3, htoNat, hstep]

/-- C4 (witness): with one retry allowed and a backend answering 503 on
both attempts, the run exhausts both attempts and reports the backend's
internal problems with the last status, 503. -/
theorem http_retry_policy_witness :
    runnerRunCheck optsRetry1 resp503 =
      ⟨{ exitCode := 3,
         message := "graphite api has internal problems, answered with status code: 503" }, 2⟩ := by
  have h := (http_retry_policy optsRetry1 resp503 (by decide) (by decide) (by decide)
    (by decide)).2.2.2.2.2.1
  have h2 := h (fun j hj => ⟨503, .ok [], rfl, by decide⟩)
  exact h2.trans (by decide)

end CheckGraphite
